import Mathlib

set_option maxRecDepth 100000

/-- JSON values as used by the agent runtime: serde_json `Value` with integer
numbers (all numbers occurring in the core are integers); object fields are
kept in sorted key order, matching serde_json's BTreeMap representation. -/
inductive Json where
  | null : Json
  | bool : Bool → Json
  | num : Int → Json
  | str : String → Json
  | arr : List Json → Json
  | obj : List (String × Json) → Json

/-- Decimal digits of a natural number, fuel-indexed so the recursion is
structural (fuel `n + 1` always suffices). Mirrors Rust's `Display for u64`. -/
def natReprAux : Nat → Nat → List Char
  | 0, _ => []
  | fuel + 1, n =>
    if n < 10 then [Nat.digitChar n]
    else natReprAux fuel (n / 10) ++ [Nat.digitChar (n % 10)]

def natRepr (n : Nat) : String := String.mk (natReprAux (n + 1) n)

/-- Decimal representation of an integer, mirroring Rust's `Display for i64`. -/
def intRepr : Int → String
  | Int.ofNat m => natRepr m
  | Int.negSucc m => "-" ++ natRepr (m + 1)

/-- JSON string escaping as performed by serde_json's serializer: quote,
backslash and the named control characters get two-character escapes, the
remaining control characters a six-character hex escape. -/
def escapeChar (c : Char) : List Char :=
  if c = '"' then ['\\', '"']
  else if c = '\\' then ['\\', '\\']
  else if c = '\x08' then ['\\', 'b']
  else if c = '\t' then ['\\', 't']
  else if c = '\n' then ['\\', 'n']
  else if c = '\x0c' then ['\\', 'f']
  else if c = '\r' then ['\\', 'r']
  else if c.toNat < 32 then
    ['\\', 'u', '0', '0', Nat.digitChar (c.toNat / 16), Nat.digitChar (c.toNat % 16)]
  else [c]

def escapeString (s : String) : String := String.mk (s.data.flatMap escapeChar)

mutual
/-- Compact serialization of a JSON value, mirroring `serde_json::Value::to_string`. -/
def serialize : Json → String
  | Json.null => "null"
  | Json.bool b => if b then "true" else "false"
  | Json.num n => intRepr n
  | Json.str s => "\"" ++ escapeString s ++ "\""
  | Json.arr xs => "[" ++ serializeItems xs ++ "]"
  | Json.obj fs => "\x7b" ++ serializeFields fs ++ "\x7d"

def serializeItems : List Json → String
  | [] => ""
  | [x] => serialize x
  | x :: y :: rest => serialize x ++ "," ++ serializeItems (y :: rest)

def serializeFields : List (String × Json) → String
  | [] => ""
  | [(k, v)] => "\"" ++ escapeString k ++ "\":" ++ serialize v
  | (k, v) :: f :: rest =>
    "\"" ++ escapeString k ++ "\":" ++ serialize v ++ "," ++ serializeFields (f :: rest)
end

/-- Token estimator from the source (`estimate_tokens`): the number of code
points of the canonical serialization. -/
def estimateTokens (v : Json) : Nat := (serialize v).length

/-- Field lookup in an object field list (serde_json `Map::get`). -/
def lookupField : List (String × Json) → String → Option Json
  | [], _ => none
  | (k, v) :: rest, key => if k = key then some v else lookupField rest key

/-- Mirrors `Value::get(key)`: `some` only for objects that carry the key. -/
def Json.getField : Json → String → Option Json
  | Json.obj fs, key => lookupField fs key
  | _, _ => none

/-- Mirrors serde_json's non-mutating `value[key]` indexing: yields `Null`
for a missing key and for non-object values. -/
def Json.indexStr (v : Json) (key : String) : Json := (v.getField key).getD Json.null

/-- Mirrors `Value::as_str`. -/
def Json.asStr : Json → Option String
  | Json.str s => some s
  | _ => none

/-- Mirrors `Value::as_array`. -/
def Json.asArray : Json → Option (List Json)
  | Json.arr xs => some xs
  | _ => none

/-- Empty JSON object, the `json!` empty-braces literal. -/
def emptyObj : Json := Json.obj []

/-- A unit of work sent to a provider (`Ask` in the source). -/
structure Ask where
  op : String
  input : Json
  context : Json

/-- The outcome of a provider invocation (`Reply` in the source). -/
structure Reply where
  ok : Bool
  output : Json
  latency_ms : Nat
  cost : Json

/-- The two reasoning modes (`ReasoningMode` in the source). -/
inductive ReasoningMode where
  | direct : ReasoningMode
  | reasoned : ReasoningMode
deriving DecidableEq

/-- Mirrors `ReasoningMode::as_str`. -/
def ReasoningMode.asStr : ReasoningMode → String
  | ReasoningMode.direct => "direct"
  | ReasoningMode.reasoned => "reasoned"

/-- Pure scoring policy (`ReasoningPolicy` in the source). -/
structure ReasoningPolicy where
  threshold : Nat
  toolWeight : Nat

/-- The `Default` impl for `ReasoningPolicy`. -/
def defaultPolicy : ReasoningPolicy := ⟨200, 50⟩

/-- Mirrors `ReasoningPolicy::decide`: score the input text (raw string, or
serialization for non-strings) plus a weighted tool count against the threshold. -/
def ReasoningPolicy.decide (p : ReasoningPolicy) (input : Json) (toolCount : Nat) :
    ReasoningMode :=
  if (match input with
      | Json.str s => s
      | v => serialize v).length + toolCount * p.toolWeight > p.threshold
  then ReasoningMode.reasoned
  else ReasoningMode.direct

/-- The reply manufactured by the retry wrapper and the parallel path on
cancellation. -/
def cancelledReply : Reply :=
  ⟨false, Json.obj [("error", Json.str "cancelled")], 0, emptyObj⟩

/-- Output object of a token-budget failure. -/
def tokenBudgetObj : Json := Json.obj [("error", Json.str "token budget exceeded")]

def budgetExceededReply (lat : Nat) (cost : Json) : Reply := ⟨false, tokenBudgetObj, lat, cost⟩

def stepLimitReply : Reply :=
  ⟨false, Json.obj [("error", Json.str "step limit exceeded")], 0, emptyObj⟩

def unknownToolReply (name : String) : Reply :=
  ⟨false, Json.obj [("error", Json.str "unknown tool"), ("tool", Json.str name)], 0, emptyObj⟩

def toolFailedReply (name : String) (detail : Json) (lat : Nat) (cost : Json) : Reply :=
  ⟨false,
   Json.obj [("detail", detail), ("error", Json.str "tool invocation failed"),
             ("tool", Json.str name)],
   lat, cost⟩

/-- A provider behaviour: the reply may depend on how many invocations this
environment has already served (modelling interior mutability) and on the ask. -/
abbrev ToolFun := Nat → Ask → Reply

/-- One pass of `call_with_retry`'s attempt loop. `op` is the wrapped closure,
indexed by how many times it has been invoked so far; `cancel` is the
cancellation oracle, sampled once per observation point (index `cidx`);
`fuel` is the number of attempts still available (`max_retries - attempt`).
Returns the reply, the final invocation count, and the next oracle index;
`none` models the `unreachable!()` tail (hit only when `max_retries = 0`). -/
def callWithRetryAux (op : Nat → Reply) (cancel : Nat → Bool) :
    Nat → Nat → Nat → Option (Reply × Nat × Nat)
  | 0, _, _ => none
  | fuel + 1, attempt, cidx =>
    if cancel cidx then some (cancelledReply, attempt, cidx + 1)
    else
      let reply := op attempt
      if reply.ok then some (reply, attempt + 1, cidx + 1)
      else if fuel = 0 then some (reply, attempt + 1, cidx + 1)
      else if cancel (cidx + 1) then some (cancelledReply, attempt + 1, cidx + 2)
      else callWithRetryAux op cancel fuel (attempt + 1) (cidx + 2)

/-- Mirrors `call_with_retry` (the backoff delay has no observable effect on
replies and is not modelled; the select on each sleep samples the oracle once). -/
def callWithRetry (op : Nat → Reply) (maxRetries : Nat) (cancel : Nat → Bool)
    (cidx : Nat) : Option (Reply × Nat × Nat) :=
  callWithRetryAux op cancel maxRetries 0 cidx

/-- State threaded through one step of `Agent::run` while the primary-call
counter is handled separately by the step loop. -/
structure MidState where
  remaining : Nat
  current : Ask
  tcalls : Nat
  cidx : Nat

/-- Full run state: remaining token budget, current ask, number of primary
provider invocations, number of tool provider invocations, oracle index. -/
structure RunState where
  remaining : Nat
  current : Ask
  pcalls : Nat
  tcalls : Nat
  cidx : Nat

def mergeState (pcalls : Nat) (ms : MidState) : RunState :=
  ⟨ms.remaining, ms.current, pcalls, ms.tcalls, ms.cidx⟩

/-- The failure-fold tail of a step (source lines 494 to 512): the non-OK,
non-tool-call reply output becomes the next input, with a retry-tagged context. -/
def foldStep (mode : ReasoningMode) (step : Nat) (reply : Reply) (ms : MidState) :
    (Reply × MidState) ⊕ MidState :=
  let current2 : Ask := ⟨ms.current.op, reply.output,
    Json.obj [("reasoning", Json.str mode.asStr), ("retry", Json.num (Int.ofNat (step + 1)))]⟩
  let nextT := estimateTokens current2.input + estimateTokens current2.context
  if nextT > ms.remaining then Sum.inl (budgetExceededReply 0 emptyObj, ms)
  else Sum.inr { ms with remaining := ms.remaining - nextT, current := current2 }

/-- The single-entry tool path of a step (source lines 282 to 364). -/
def singleTool (toolsF : String → Option ToolFun) (maxRetries : Nat)
    (cancel : Nat → Bool) (mode : ReasoningMode) (tc : Json) (ms : MidState) :
    Option ((Reply × MidState) ⊕ MidState) :=
  let name := ((tc.indexStr "op").asStr).getD ""
  let input := tc.indexStr "input"
  match toolsF name with
  | none => some (Sum.inl (unknownToolReply name, ms))
  | some tf =>
    let t := estimateTokens input
    if t > ms.remaining then some (Sum.inl (budgetExceededReply 0 emptyObj, ms))
    else
      let ms1 := { ms with remaining := ms.remaining - t }
      match callWithRetry (fun k => tf (ms1.tcalls + k) ⟨name, input, emptyObj⟩)
          maxRetries cancel ms1.cidx with
      | none => none
      | some (tr, m, cidx2) =>
        let ms2 := { ms1 with tcalls := ms1.tcalls + m, cidx := cidx2 }
        if cancel ms2.cidx then some (Sum.inl (tr, { ms2 with cidx := ms2.cidx + 1 }))
        else
          let ms3 := { ms2 with cidx := ms2.cidx + 1 }
          if tr.ok = false then
            some (Sum.inl (toolFailedReply name tr.output tr.latency_ms tr.cost, ms3))
          else
            let t2 := estimateTokens tr.output
            if t2 > ms3.remaining then
              some (Sum.inl (budgetExceededReply 0 emptyObj, ms3))
            else
              let ms4 := { ms3 with remaining := ms3.remaining - t2 }
              let current2 : Ask := ⟨ms4.current.op, tr.output,
                Json.obj [("reasoning", Json.str mode.asStr), ("tool", Json.str name)]⟩
              let nextT := estimateTokens current2.input + estimateTokens current2.context
              if nextT > ms4.remaining then
                some (Sum.inl (budgetExceededReply 0 emptyObj, ms4))
              else
                some (Sum.inr { ms4 with remaining := ms4.remaining - nextT, current := current2 })

/-- The synchronous collection loop at the head of the parallel path (source
lines 366 to 414): per entry, in order, look the tool up (an unknown name
short-circuits) and then debit the entry's input tokens. -/
def precollect (toolsF : String → Option ToolFun) :
    List Json → Nat → Except Reply (List (String × ToolFun × Json) × Nat)
  | [], rem => Except.ok ([], rem)
  | tc :: rest, rem =>
    let name := ((tc.indexStr "op").asStr).getD ""
    let input := tc.indexStr "input"
    match toolsF name with
    | none => Except.error (unknownToolReply name)
    | some tf =>
      let t := estimateTokens input
      if t > rem then Except.error (budgetExceededReply 0 emptyObj)
      else
        match precollect toolsF rest (rem - t) with
        | Except.error e => Except.error e
        | Except.ok (entries, rem2) => Except.ok ((name, tf, input) :: entries, rem2)

/-- Awaiting the fan-out futures (source lines 415 to 437), in submission
order, each through the retry wrapper; `none` models the unreachable tail of
a wrapper call with `max_retries = 0`. -/
def dispatchAll (maxRetries : Nat) (cancel : Nat → Bool) :
    List (String × ToolFun × Json) → Nat → Nat → Option (List Reply × Nat × Nat)
  | [], tcalls, cidx => some ([], tcalls, cidx)
  | (name, tf, input) :: rest, tcalls, cidx =>
    match callWithRetry (fun k => tf (tcalls + k) ⟨name, input, emptyObj⟩)
        maxRetries cancel cidx with
    | none => none
    | some (r, m, cidx2) =>
      match dispatchAll maxRetries cancel rest (tcalls + m) cidx2 with
      | none => none
      | some (rs, tcalls2, cidx3) => some (r :: rs, tcalls2, cidx3)

/-- The result fold of the parallel path (source lines 446 to 471): in
submission order, the first non-OK reply wins, otherwise the output is
debited and collected. -/
def debitOutputs : List (String × Reply) → Nat → Except Reply (List Json × Nat)
  | [], rem => Except.ok ([], rem)
  | (name, r) :: rest, rem =>
    if r.ok = false then Except.error (toolFailedReply name r.output r.latency_ms r.cost)
    else
      let t := estimateTokens r.output
      if t > rem then Except.error (budgetExceededReply 0 emptyObj)
      else
        match debitOutputs rest (rem - t) with
        | Except.error e => Except.error e
        | Except.ok (outs, rem2) => Except.ok (r.output :: outs, rem2)

/-- The parallel tool path of a step (source lines 365 to 491). -/
def parallelTools (toolsF : String → Option ToolFun) (maxRetries : Nat)
    (cancel : Nat → Bool) (mode : ReasoningMode) (toolCalls : List Json)
    (ms : MidState) : Option ((Reply × MidState) ⊕ MidState) :=
  match precollect toolsF toolCalls ms.remaining with
  | Except.error r => some (Sum.inl (r, ms))
  | Except.ok (entries, rem2) =>
    match dispatchAll maxRetries cancel entries ms.tcalls ms.cidx with
    | none => none
    | some (results, tcalls2, cidx2) =>
      if cancel cidx2 then
        some (Sum.inl (cancelledReply, { ms with tcalls := tcalls2, cidx := cidx2 + 1 }))
      else
        let names := entries.map (fun e => e.1)
        match debitOutputs (names.zip results) rem2 with
        | Except.error r =>
          some (Sum.inl (r, { ms with remaining := rem2, tcalls := tcalls2, cidx := cidx2 + 1 }))
        | Except.ok (outputs, rem3) =>
          let current2 : Ask := ⟨ms.current.op, Json.arr outputs,
            Json.obj [("reasoning", Json.str mode.asStr),
                      ("tools", Json.arr (names.map Json.str))]⟩
          let nextT := estimateTokens current2.input + estimateTokens current2.context
          if nextT > rem3 then
            some (Sum.inl (budgetExceededReply 0 emptyObj,
              { ms with remaining := rem3, tcalls := tcalls2, cidx := cidx2 + 1 }))
          else
            some (Sum.inr { ms with remaining := rem3 - nextT, current := current2, tcalls := tcalls2, cidx := cidx2 + 1 })

/-- Everything one step does after the primary provider's retry-wrapped reply
has come back (source lines 265 to 512): cancellation check, output debit,
success return, tool dispatch, or failure fold. `Sum.inl` is a return from
`run`, `Sum.inr` the continue state for the next step. -/
def afterPrimary (toolsF : String → Option ToolFun) (maxRetries : Nat)
    (cancel : Nat → Bool) (mode : ReasoningMode) (step : Nat) (reply : Reply)
    (ms : MidState) : Option ((Reply × MidState) ⊕ MidState) :=
  if cancel ms.cidx then some (Sum.inl (reply, { ms with cidx := ms.cidx + 1 }))
  else
    let ms1 := { ms with cidx := ms.cidx + 1 }
    let replyTokens := estimateTokens reply.output
    if replyTokens > ms1.remaining then
      some (Sum.inl (⟨false, tokenBudgetObj, reply.latency_ms, reply.cost⟩, ms1))
    else
      let ms2 := { ms1 with remaining := ms1.remaining - replyTokens }
      if reply.ok then some (Sum.inl (reply, ms2))
      else
        match (reply.output.getField "tool_calls").bind Json.asArray with
        | some toolCalls =>
          if toolCalls.length = 1 then
            singleTool toolsF maxRetries cancel mode (toolCalls.headD Json.null) ms2
          else if toolCalls.length = 0 then some (foldStep mode step reply ms2)
          else parallelTools toolsF maxRetries cancel mode toolCalls ms2
        | none => some (foldStep mode step reply ms2)

/-- The step iteration of `Agent::run` (source lines 258 to 519). `fuel` is
the number of steps still available, `step` the current step index. -/
def runAux (primary : Nat → Ask → Reply) (toolsF : String → Option ToolFun)
    (maxRetries : Nat) (cancel : Nat → Bool) (mode : ReasoningMode) :
    Nat → Nat → RunState → Option (Reply × RunState)
  | 0, _, st => some (stepLimitReply, st)
  | fuel + 1, step, st =>
    match callWithRetry (fun k => primary (st.pcalls + k) st.current)
        maxRetries cancel st.cidx with
    | none => none
    | some (reply, n, cidx1) =>
      match afterPrimary toolsF maxRetries cancel mode step reply
          ⟨st.remaining, st.current, st.tcalls, cidx1⟩ with
      | none => none
      | some (Sum.inl (r, ms)) => some (r, mergeState (st.pcalls + n) ms)
      | some (Sum.inr ms) =>
        runAux primary toolsF maxRetries cancel mode fuel (step + 1)
          (mergeState (st.pcalls + n) ms)

/-- Initial token estimate of an ask (source line 239). -/
def askTokens (a : Ask) : Nat := estimateTokens a.input + estimateTokens a.context

/-- Mode selection with the budget override (source lines 249 to 253). -/
def chosenMode (policy : ReasoningPolicy) (maxTokens : Nat) (a : Ask) : ReasoningMode :=
  if askTokens a * 100 / maxTokens > 85 then ReasoningMode.direct
  else policy.decide a.input 0

/-- The ask handed to the primary provider at step 0 (source lines 254 to 257):
the caller's context is replaced by the reasoning annotation. -/
def step0Ask (policy : ReasoningPolicy) (maxTokens : Nat) (a : Ask) : Ask :=
  ⟨a.op, a.input, Json.obj [("reasoning", Json.str (chosenMode policy maxTokens a).asStr)]⟩

/-- Mirrors `Agent::run` (source lines 237 to 520): budget prelude, mode
selection, then the step loop. Returns the reply together with the final
bookkeeping state; `none` models the panic of a retry wrapper invoked with
`max_retries = 0`. -/
def run (primary : Nat → Ask → Reply) (toolsF : String → Option ToolFun)
    (maxRetries : Nat) (cancel : Nat → Bool) (maxSteps maxTokens : Nat)
    (policy : ReasoningPolicy) (a : Ask) : Option (Reply × RunState) :=
  if askTokens a > maxTokens then
    some (budgetExceededReply 0 emptyObj, ⟨maxTokens, a, 0, 0, 0⟩)
  else
    runAux primary toolsF maxRetries cancel (chosenMode policy maxTokens a) maxSteps 0
      ⟨maxTokens - askTokens a, step0Ask policy maxTokens a, 0, 0, 0⟩

def cNever : Nat → Bool := fun _ => false

def cNoTools : String → Option ToolFun := fun _ => none

def cEchoPrimary : Nat → Ask → Reply := fun _ a => ⟨true, a.input, 0, emptyObj⟩

def cFailReply : Reply := ⟨false, Json.obj [("error", Json.str "fail")], 0, emptyObj⟩

def cFailPrimary : Nat → Ask → Reply := fun _ _ => cFailReply

def cInspectPrimary : Nat → Ask → Reply := fun _ a => ⟨true, a.context, 0, emptyObj⟩

/-- Wrapped closure for the C5 witness: fails on its first invocation,
succeeds on its second. -/
def cF5 : Nat → Reply := fun k => ⟨k == 1, Json.str "w", 0, emptyObj⟩

def cAsk1 : Ask := ⟨"f", Json.str "", emptyObj⟩

def cAsk2 : Ask := ⟨"go", Json.str "", emptyObj⟩

def cT1fun : ToolFun := fun _ _ => ⟨true, Json.str "r", 0, emptyObj⟩

/-- Registry for the C2 counterexample: only tool `t1` is registered. -/
def cT2tools : String → Option ToolFun :=
  fun n => if n = "t1" then some cT1fun else none

/-- First fan-out entry of the C2 counterexample: registered tool, 42-token input. -/
def cTc0 : Json :=
  Json.obj [("input", Json.str (String.mk (List.replicate 40 'x'))), ("op", Json.str "t1")]

/-- Second fan-out entry of the C2 counterexample: unregistered tool `t2`. -/
def cTc1 : Json := Json.obj [("op", Json.str "t2")]

def cOut2 : Json := Json.obj [("tool_calls", Json.arr [cTc0, cTc1])]

def cPrim2 : Nat → Ask → Reply := fun _ _ => ⟨false, cOut2, 0, emptyObj⟩

def cPolicy7 : ReasoningPolicy := ⟨10, 50⟩

def cAsk7 : Ask := ⟨"inspect", Json.str (String.mk (List.replicate 176 'x')), emptyObj⟩

def cAsk9 : Ask := ⟨"echo", Json.obj [("msg", Json.str "hi")], emptyObj⟩

/-- Oversized primary reply for the C4 witness: 22 estimated tokens, with
nonzero latency and a nonempty cost to show they are preserved. -/
def cReplyA : Reply := ⟨false, Json.str (String.mk (List.replicate 20 'x')), 7, Json.str "c"⟩

def cPrimA : Nat → Ask → Reply := fun _ _ => cReplyA

def cStA : RunState := ⟨10, ⟨"o", Json.str "", emptyObj⟩, 0, 0, 0⟩

theorem natReprAux_length_pos (fuel n : Nat) : 1 ≤ (natReprAux (fuel + 1) n).length := by
  unfold natReprAux
  split
  · simp
  · simp [List.length_append]

theorem estimateTokens_pos (v : Json) : 1 ≤ estimateTokens v := by
  cases v with
  | null => decide
  | bool b => cases b <;> decide
  | num n =>
    cases n with
    | ofNat m =>
      simpa [estimateTokens, serialize, intRepr, natRepr] using natReprAux_length_pos m m
    | negSucc m =>
      have h2 : "-".length = 1 := rfl
      simp [estimateTokens, serialize, intRepr, natRepr, String.length_append]
      omega
  | str s =>
    have h2 : "\"".length = 1 := rfl
    simp [estimateTokens, serialize, String.length_append]
    omega
  | arr xs =>
    have h2 : "[".length = 1 := rfl
    have h3 : "]".length = 1 := rfl
    simp [estimateTokens, serialize, String.length_append]
    omega
  | obj fs =>
    have h2 : "\x7b".length = 1 := rfl
    have h3 : "\x7d".length = 1 := rfl
    simp [estimateTokens, serialize, String.length_append]
    omega

theorem askTokens_ge_two (a : Ask) : 2 ≤ askTokens a := by
  have h1 := estimateTokens_pos a.input
  have h2 := estimateTokens_pos a.context
  unfold askTokens
  omega

/-- Claim C10: every JSON value's estimate is at least 1 (the canonical
serialization is never empty), so every ask's initial estimate is at least 2;
with a zero token budget every run fails at the budget prelude, and whenever
the prelude passes the divisor of the budget-override ratio is at least 2, so
the division is never by zero and the run is total in the budget. -/
theorem estimate_tokens_positive_run_total :
    (∀ v : Json, 1 ≤ estimateTokens v) ∧
    (∀ a : Ask, 2 ≤ askTokens a) ∧
    (∀ (primary : Nat → Ask → Reply) (toolsF : String → Option ToolFun)
       (maxRetries : Nat) (cancel : Nat → Bool) (maxSteps : Nat)
       (policy : ReasoningPolicy) (a : Ask),
       run primary toolsF maxRetries cancel maxSteps 0 policy a
         = some (budgetExceededReply 0 emptyObj, ⟨0, a, 0, 0, 0⟩)) ∧
    (∀ (a : Ask) (maxTokens : Nat), askTokens a ≤ maxTokens →
       2 ≤ askTokens a ∧ 2 ≤ maxTokens) := by
  refine ⟨estimateTokens_pos, askTokens_ge_two, ?_, ?_⟩
  · intro primary toolsF maxRetries cancel maxSteps policy a
    have h : askTokens a > 0 := lt_of_lt_of_le (by omega) (askTokens_ge_two a)
    unfold run
    rw [if_pos h]
  · intro a maxTokens h
    exact ⟨askTokens_ge_two a, le_trans (askTokens_ge_two a) h⟩

theorem estimate_tokens_positive_run_total_witness :
    1 ≤ estimateTokens (Json.str "hi") ∧
    2 ≤ askTokens cAsk9 ∧
    run cEchoPrimary cNoTools 1 cNever 1 0 defaultPolicy cAsk9
      = some (budgetExceededReply 0 emptyObj, ⟨0, cAsk9, 0, 0, 0⟩) ∧
    askTokens cAsk9 ≤ 100 ∧ 2 ≤ askTokens cAsk9 ∧ 2 ≤ 100 :=
  ⟨estimate_tokens_positive_run_total.1 (Json.str "hi"),
   estimate_tokens_positive_run_total.2.1 cAsk9,
   estimate_tokens_positive_run_total.2.2.1 cEchoPrimary cNoTools 1 cNever 1 defaultPolicy cAsk9,
   by decide,
   (estimate_tokens_positive_run_total.2.2.2 cAsk9 100 (by decide)).1,
   (estimate_tokens_positive_run_total.2.2.2 cAsk9 100 (by decide)).2⟩

/-- Claim C8: when the initial estimate of input plus context exceeds the
token budget, run fails at the prelude with the token-budget error, zero
latency and empty cost, and the final state records zero primary and zero
tool invocations and an untouched budget: no provider is invoked and nothing
is debited. -/
theorem budget_prelude_atomic_failure (primary : Nat → Ask → Reply)
    (toolsF : String → Option ToolFun) (maxRetries : Nat) (cancel : Nat → Bool)
    (maxSteps maxTokens : Nat) (policy : ReasoningPolicy) (a : Ask)
    (h : askTokens a > maxTokens) :
    run primary toolsF maxRetries cancel maxSteps maxTokens policy a
      = some (budgetExceededReply 0 emptyObj, ⟨maxTokens, a, 0, 0, 0⟩) := by
  unfold run
  rw [if_pos h]

theorem budget_prelude_atomic_failure_witness :
    askTokens cAsk9 > 3 ∧
    run cEchoPrimary cNoTools 2 cNever 3 3 defaultPolicy cAsk9
      = some (budgetExceededReply 0 emptyObj, ⟨3, cAsk9, 0, 0, 0⟩) :=
  ⟨by decide,
   budget_prelude_atomic_failure cEchoPrimary cNoTools 2 cNever 3 3 defaultPolicy cAsk9
     (by decide)⟩

theorem cwrAux_never_spec (f : Nat → Reply) :
    ∀ fuel attempt cidx, 1 ≤ fuel →
    ∃ r n cidx2,
      callWithRetryAux f (fun _ => false) fuel attempt cidx = some (r, n, cidx2) ∧
      attempt + 1 ≤ n ∧ n ≤ attempt + fuel ∧ r = f (n - 1) ∧
      (∀ j, attempt ≤ j → j + 1 < n → (f j).ok = false) ∧
      ((f (n - 1)).ok = true ∨ n = attempt + fuel) := by
  intro fuel
  induction fuel with
  | zero => intro attempt cidx h; omega
  | succ k ih =>
    intro attempt cidx _
    by_cases hok : (f attempt).ok = true
    · refine ⟨f attempt, attempt + 1, cidx + 1, ?_, by omega, by omega, by simp, ?_, ?_⟩
      · simp [callWithRetryAux, hok]
      · intro j h1 h2; omega
      · left; simpa using hok
    · have hok2 : (f attempt).ok = false := by
        cases h : (f attempt).ok
        · rfl
        · exact absurd h hok
      cases k with
      | zero =>
        refine ⟨f attempt, attempt + 1, cidx + 1, ?_, by omega, by omega, by simp, ?_, ?_⟩
        · simp [callWithRetryAux, hok2]
        · intro j h1 h2; omega
        · right; omega
      | succ k2 =>
        obtain ⟨r, n, c2, heq, hlo, hhi, hr, hprev, hlast⟩ :=
          ih (attempt + 1) (cidx + 2) (by omega)
        refine ⟨r, n, c2, ?_, by omega, by omega, hr, ?_, ?_⟩
        · simpa [callWithRetryAux, hok2] using heq
        · intro j h1 h2
          rcases Nat.eq_or_lt_of_le h1 with h3 | h3
          · exact h3 ▸ hok2
          · exact hprev j (by omega) h2
        · rcases hlast with h3 | h3
          · exact Or.inl h3
          · exact Or.inr (by omega)

/-- Claim C5: with a never-cancelled token and any `max_retries` of at least 1,
the retry wrapper invokes the wrapped function at most `max_retries` times and
returns the first OK reply, or, when every attempt fails, the reply of the
final invocation unchanged; the unreachable tail is never taken. -/
theorem call_with_retry_first_ok_or_last (f : Nat → Reply) (maxRetries cidx : Nat)
    (h : 1 ≤ maxRetries) :
    ∃ r n cidx2,
      callWithRetry f maxRetries (fun _ => false) cidx = some (r, n, cidx2) ∧
      1 ≤ n ∧ n ≤ maxRetries ∧ r = f (n - 1) ∧
      (∀ j, j + 1 < n → (f j).ok = false) ∧
      ((f (n - 1)).ok = true ∨
        (n = maxRetries ∧ ∀ j, j < maxRetries → (f j).ok = false)) := by
  obtain ⟨r, n, c2, heq, hlo, hhi, hr, hprev, hlast⟩ := cwrAux_never_spec f maxRetries 0 cidx h
  refine ⟨r, n, c2, heq, by omega, by omega, hr, ?_, ?_⟩
  · intro j hj; exact hprev j (by omega) hj
  · by_cases hok : (f (n - 1)).ok = true
    · exact Or.inl hok
    · have hok2 : (f (n - 1)).ok = false := by
        cases h2 : (f (n - 1)).ok
        · rfl
        · exact absurd h2 hok
      rcases hlast with h3 | h3
      · exact absurd h3 hok
      · refine Or.inr ⟨by omega, ?_⟩
        intro j hj
        rcases Nat.lt_or_ge (j + 1) n with h4 | h4
        · exact hprev j (by omega) h4
        · have : j = n - 1 := by omega
          exact this ▸ hok2

theorem call_with_retry_first_ok_or_last_witness :
    (1 ≤ 3) ∧
    (∃ r n cidx2,
      callWithRetry cF5 3 (fun _ => false) 0 = some (r, n, cidx2) ∧
      1 ≤ n ∧ n ≤ 3 ∧ r = cF5 (n - 1) ∧
      (∀ j, j + 1 < n → (cF5 j).ok = false) ∧
      ((cF5 (n - 1)).ok = true ∨ (n = 3 ∧ ∀ j, j < 3 → (cF5 j).ok = false))) :=
  ⟨by omega, call_with_retry_first_ok_or_last cF5 3 0 (by omega)⟩

/-- Claim C6: if the cancellation oracle is set at the top of a retry attempt
the wrapper returns the manufactured cancelled reply without invoking the
wrapped function (the invocation count is unchanged), and if it is clear at
the top but fires during the backoff sleep of a failed non-final attempt the
same cancelled reply is returned; that reply carries ok false, the cancelled
error output, zero latency and empty cost. -/
theorem call_with_retry_cancellation (f : Nat → Reply) (cancel : Nat → Bool)
    (fuel attempt cidx : Nat) :
    (cancel cidx = true →
       callWithRetryAux f cancel (fuel + 1) attempt cidx
         = some (cancelledReply, attempt, cidx + 1)) ∧
    (cancel cidx = false → (f attempt).ok = false → fuel ≠ 0 → cancel (cidx + 1) = true →
       callWithRetryAux f cancel (fuel + 1) attempt cidx
         = some (cancelledReply, attempt + 1, cidx + 2)) ∧
    cancelledReply = ⟨false, Json.obj [("error", Json.str "cancelled")], 0, Json.obj []⟩ := by
  refine ⟨?_, ?_, rfl⟩
  · intro hc
    simp [callWithRetryAux, hc]
  · intro hc hok hf hc2
    simp [callWithRetryAux, hc, hok, hf, hc2]

theorem call_with_retry_cancellation_witness :
    ((fun _ : Nat => true) 0 = true ∧
     callWithRetryAux cF5 (fun _ => true) 3 0 0 = some (cancelledReply, 0, 1)) ∧
    ((fun i : Nat => i ≥ 1) 0 = false ∧ (cF5 0).ok = false ∧
     (fun i : Nat => i ≥ 1) 1 = true ∧
     callWithRetryAux cF5 (fun i => i ≥ 1) 3 0 0 = some (cancelledReply, 1, 2)) :=
  ⟨⟨rfl, (call_with_retry_cancellation cF5 (fun _ => true) 2 0 0).1 rfl⟩,
   ⟨by decide, by decide, by decide,
    (call_with_retry_cancellation cF5 (fun i => i ≥ 1) 2 0 0).2.1 (by decide) (by decide)
      (by decide) (by decide)⟩⟩

theorem runAux_step_budget (primary : Nat → Ask → Reply) (toolsF : String → Option ToolFun)
    (maxRetries : Nat) (cancel : Nat → Bool) (mode : ReasoningMode) (fuel step : Nat)
    (st : RunState) (reply : Reply) (n cidx1 : Nat)
    (hcall : callWithRetry (fun k => primary (st.pcalls + k) st.current) maxRetries cancel st.cidx
      = some (reply, n, cidx1))
    (hnc : cancel cidx1 = false)
    (hgt : estimateTokens reply.output > st.remaining) :
    runAux primary toolsF maxRetries cancel mode (fuel + 1) step st
      = some (⟨false, tokenBudgetObj, reply.latency_ms, reply.cost⟩,
              ⟨st.remaining, st.current, st.pcalls + n, st.tcalls, cidx1 + 1⟩) := by
  simp only [runAux]
  rw [hcall]
  simp [afterPrimary, hnc, hgt, mergeState]

theorem runAux_step_ok (primary : Nat → Ask → Reply) (toolsF : String → Option ToolFun)
    (maxRetries : Nat) (cancel : Nat → Bool) (mode : ReasoningMode) (fuel step : Nat)
    (st : RunState) (reply : Reply) (n cidx1 : Nat)
    (hcall : callWithRetry (fun k => primary (st.pcalls + k) st.current) maxRetries cancel st.cidx
      = some (reply, n, cidx1))
    (hnc : cancel cidx1 = false)
    (hok : reply.ok = true)
    (hle : estimateTokens reply.output ≤ st.remaining) :
    runAux primary toolsF maxRetries cancel mode (fuel + 1) step st
      = some (reply,
              ⟨st.remaining - estimateTokens reply.output, st.current, st.pcalls + n,
               st.tcalls, cidx1 + 1⟩) := by
  simp only [runAux]
  rw [hcall]
  simp [afterPrimary, hnc, Nat.not_lt.mpr hle, hok, mergeState]

/-- Claim C4: in any step, once the primary reply is back and cancellation is
not signaled, the reply's output estimate is debited before the reply is
inspected: when it exceeds the remaining budget the run returns the
token-budget error carrying that reply's latency and cost (even for an OK
reply), and an OK reply is returned to the caller exactly when its output
fits the remaining budget. -/
theorem step_output_debit_precedes_inspection (primary : Nat → Ask → Reply)
    (toolsF : String → Option ToolFun) (maxRetries : Nat) (cancel : Nat → Bool)
    (mode : ReasoningMode) (fuel step : Nat) (st : RunState) (reply : Reply) (n cidx1 : Nat)
    (hcall : callWithRetry (fun k => primary (st.pcalls + k) st.current) maxRetries cancel st.cidx
      = some (reply, n, cidx1))
    (hnc : cancel cidx1 = false) :
    (estimateTokens reply.output > st.remaining →
       runAux primary toolsF maxRetries cancel mode (fuel + 1) step st
         = some (⟨false, tokenBudgetObj, reply.latency_ms, reply.cost⟩,
                 ⟨st.remaining, st.current, st.pcalls + n, st.tcalls, cidx1 + 1⟩)) ∧
    (reply.ok = true → estimateTokens reply.output ≤ st.remaining →
       runAux primary toolsF maxRetries cancel mode (fuel + 1) step st
         = some (reply,
                 ⟨st.remaining - estimateTokens reply.output, st.current, st.pcalls + n,
                  st.tcalls, cidx1 + 1⟩)) :=
  ⟨fun hgt => runAux_step_budget primary toolsF maxRetries cancel mode fuel step st reply n
      cidx1 hcall hnc hgt,
   fun hok hle => runAux_step_ok primary toolsF maxRetries cancel mode fuel step st reply n
      cidx1 hcall hnc hok hle⟩

theorem step_output_debit_precedes_inspection_witness :
    callWithRetry (fun k => cPrimA (cStA.pcalls + k) cStA.current) 1 cNever cStA.cidx
      = some (cReplyA, 1, 1) ∧
    cNever 1 = false ∧
    estimateTokens cReplyA.output > cStA.remaining ∧
    cReplyA.ok = false ∧
    runAux cPrimA cNoTools 1 cNever ReasoningMode.direct 1 0 cStA
      = some (⟨false, tokenBudgetObj, 7, Json.str "c"⟩, ⟨10, cStA.current, 1, 0, 2⟩) :=
  ⟨rfl, rfl, by decide, rfl,
   (step_output_debit_precedes_inspection cPrimA cNoTools 1 cNever ReasoningMode.direct 0 0
      cStA cReplyA 1 1 rfl rfl).1 (by decide)⟩

theorem run_first_ok (primary : Nat → Ask → Reply) (toolsF : String → Option ToolFun)
    (maxRetries maxSteps maxTokens : Nat) (policy : ReasoningPolicy) (a : Ask)
    (hr : 1 ≤ maxRetries) (hs : 1 ≤ maxSteps)
    (hp : askTokens a ≤ maxTokens)
    (hok : (primary 0 (step0Ask policy maxTokens a)).ok = true)
    (hfit : estimateTokens (primary 0 (step0Ask policy maxTokens a)).output
      ≤ maxTokens - askTokens a) :
    run primary toolsF maxRetries (fun _ => false) maxSteps maxTokens policy a
      = some (primary 0 (step0Ask policy maxTokens a),
          ⟨maxTokens - askTokens a
             - estimateTokens (primary 0 (step0Ask policy maxTokens a)).output,
           step0Ask policy maxTokens a, 1, 0, 2⟩) := by
  obtain ⟨m, rfl⟩ : ∃ m, maxSteps = m + 1 := ⟨maxSteps - 1, by omega⟩
  obtain ⟨q, rfl⟩ : ∃ q, maxRetries = q + 1 := ⟨maxRetries - 1, by omega⟩
  unfold run
  rw [if_neg (by omega)]
  have hcall : callWithRetry
      (fun k => primary ((⟨maxTokens - askTokens a, step0Ask policy maxTokens a, 0, 0, 0⟩
        : RunState).pcalls + k)
        ((⟨maxTokens - askTokens a, step0Ask policy maxTokens a, 0, 0, 0⟩ : RunState).current))
      (q + 1) (fun _ => false)
      ((⟨maxTokens - askTokens a, step0Ask policy maxTokens a, 0, 0, 0⟩ : RunState).cidx)
      = some (primary 0 (step0Ask policy maxTokens a), 1, 1) := by
    show callWithRetry (fun k => primary (0 + k) (step0Ask policy maxTokens a)) (q + 1)
      (fun _ => false) 0 = _
    simp [callWithRetry, callWithRetryAux, hok]
  exact runAux_step_ok primary toolsF (q + 1) (fun _ => false)
    (chosenMode policy maxTokens a) m 0
    ⟨maxTokens - askTokens a, step0Ask policy maxTokens a, 0, 0, 0⟩
    (primary 0 (step0Ask policy maxTokens a)) 1 1 hcall rfl hok hfit

/-- Claim C9: driving an input-echoing primary provider from step 0, with at
least one step and one retry available, no cancellation, an initial estimate
within the budget, and the input estimate within the remaining budget, the
run terminates with exactly one primary invocation, an OK reply whose output
is the ask's input, and a nonnegative remaining budget recorded in the final
state. -/
theorem echo_provider_single_step (toolsF : String → Option ToolFun)
    (maxRetries maxSteps maxTokens : Nat) (policy : ReasoningPolicy) (a : Ask)
    (hr : 1 ≤ maxRetries) (hs : 1 ≤ maxSteps)
    (hp : askTokens a ≤ maxTokens)
    (hfit : estimateTokens a.input ≤ maxTokens - askTokens a) :
    run cEchoPrimary toolsF maxRetries (fun _ => false) maxSteps maxTokens policy a
      = some (⟨true, a.input, 0, emptyObj⟩,
          ⟨maxTokens - askTokens a - estimateTokens a.input,
           step0Ask policy maxTokens a, 1, 0, 2⟩) :=
  run_first_ok cEchoPrimary toolsF maxRetries maxSteps maxTokens policy a hr hs hp rfl hfit

theorem echo_provider_single_step_witness :
    (1 ≤ 3 ∧ (1 : Nat) ≤ 3 ∧ askTokens cAsk9 ≤ 1000 ∧
     estimateTokens cAsk9.input ≤ 1000 - askTokens cAsk9) ∧
    run cEchoPrimary cNoTools 3 (fun _ => false) 3 1000 defaultPolicy cAsk9
      = some (⟨true, Json.obj [("msg", Json.str "hi")], 0, emptyObj⟩,
          ⟨974, step0Ask defaultPolicy 1000 cAsk9, 1, 0, 2⟩) :=
  ⟨⟨by omega, by omega, by decide, by decide⟩,
   echo_provider_single_step cNoTools 3 3 1000 defaultPolicy cAsk9 (by omega) (by omega)
     (by decide) (by decide)⟩

/-- Claim C7: for an initial ask that passes the budget prelude, when the
initial estimate exceeds 85 percent of the budget (in the integer arithmetic
of the source) the reasoning mode is forced to Direct regardless of the
policy, and the context handed to the primary provider in step 0 carries the
direct annotation (witnessed by a context-echoing primary); otherwise the
mode is exactly the policy's decision on the input with tool count 0. -/
theorem budget_override_forces_direct (policy : ReasoningPolicy)
    (maxTokens maxSteps maxRetries : Nat) (a : Ask)
    (hp : askTokens a ≤ maxTokens) :
    (askTokens a * 100 / maxTokens > 85 →
       chosenMode policy maxTokens a = ReasoningMode.direct ∧
       (step0Ask policy maxTokens a).context = Json.obj [("reasoning", Json.str "direct")] ∧
       (1 ≤ maxSteps → 1 ≤ maxRetries →
        estimateTokens (Json.obj [("reasoning", Json.str "direct")])
          ≤ maxTokens - askTokens a →
        run cInspectPrimary cNoTools maxRetries (fun _ => false) maxSteps maxTokens policy a
          = some (⟨true, Json.obj [("reasoning", Json.str "direct")], 0, emptyObj⟩,
              ⟨maxTokens - askTokens a
                 - estimateTokens (Json.obj [("reasoning", Json.str "direct")]),
               step0Ask policy maxTokens a, 1, 0, 2⟩))) ∧
    (askTokens a * 100 / maxTokens ≤ 85 →
       chosenMode policy maxTokens a = policy.decide a.input 0) := by
  constructor
  · intro h85
    have hmode : chosenMode policy maxTokens a = ReasoningMode.direct := by
      unfold chosenMode
      rw [if_pos h85]
    have hctx : (step0Ask policy maxTokens a).context
        = Json.obj [("reasoning", Json.str "direct")] := by
      unfold step0Ask
      rw [hmode]
      rfl
    refine ⟨hmode, hctx, ?_⟩
    intro hs hr hfit
    have hout : cInspectPrimary 0 (step0Ask policy maxTokens a)
        = ⟨true, Json.obj [("reasoning", Json.str "direct")], 0, emptyObj⟩ := by
      simp [cInspectPrimary, hctx]
    have h := run_first_ok cInspectPrimary cNoTools maxRetries maxSteps maxTokens policy a
      hr hs hp (by rw [hout]) (by rw [hout]; exact hfit)
    rw [hout] at h
    exact h
  · intro h85
    unfold chosenMode
    rw [if_neg (by omega)]

theorem budget_override_forces_direct_witness :
    askTokens cAsk7 ≤ 205 ∧ askTokens cAsk7 * 100 / 205 > 85 ∧
    cPolicy7.decide cAsk7.input 0 = ReasoningMode.reasoned ∧
    chosenMode cPolicy7 205 cAsk7 = ReasoningMode.direct ∧
    (step0Ask cPolicy7 205 cAsk7).context = Json.obj [("reasoning", Json.str "direct")] :=
  ⟨by decide, by decide, by decide,
   ((budget_override_forces_direct cPolicy7 205 1 1 cAsk7 (by decide)).1 (by decide)).1,
   ((budget_override_forces_direct cPolicy7 205 1 1 cAsk7 (by decide)).1 (by decide)).2.1⟩

theorem cwrAux_calls_le (op : Nat → Reply) (cancel : Nat → Bool) :
    ∀ fuel attempt cidx r n c2,
      callWithRetryAux op cancel fuel attempt cidx = some (r, n, c2) →
      n ≤ attempt + fuel := by
  intro fuel
  induction fuel with
  | zero =>
    intro attempt cidx r n c2 h
    simp [callWithRetryAux] at h
  | succ k ih =>
    intro attempt cidx r n c2 h
    simp only [callWithRetryAux] at h
    split at h
    · simp only [Option.some.injEq, Prod.mk.injEq] at h
      omega
    · split at h
      · simp only [Option.some.injEq, Prod.mk.injEq] at h
        omega
      · split at h
        · simp only [Option.some.injEq, Prod.mk.injEq] at h
          omega
        · split at h
          · simp only [Option.some.injEq, Prod.mk.injEq] at h
            omega
          · have := ih (attempt + 1) (cidx + 2) r n c2 h
            omega

theorem callWithRetry_calls_le (op : Nat → Reply) (maxRetries : Nat) (cancel : Nat → Bool)
    (cidx : Nat) (r : Reply) (n c2 : Nat)
    (h : callWithRetry op maxRetries cancel cidx = some (r, n, c2)) : n ≤ maxRetries := by
  have := cwrAux_calls_le op cancel maxRetries 0 cidx r n c2 h
  omega

theorem runAux_pcalls_le (primary : Nat → Ask → Reply) (toolsF : String → Option ToolFun)
    (maxRetries : Nat) (cancel : Nat → Bool) (mode : ReasoningMode) :
    ∀ fuel step st r st2,
      runAux primary toolsF maxRetries cancel mode fuel step st = some (r, st2) →
      st2.pcalls ≤ st.pcalls + fuel * maxRetries := by
  intro fuel
  induction fuel with
  | zero =>
    intro step st r st2 h
    simp only [runAux, Option.some.injEq, Prod.mk.injEq] at h
    obtain ⟨h1, h2⟩ := h
    rw [← h2]
    omega
  | succ k ih =>
    intro step st r st2 h
    simp only [runAux] at h
    split at h
    · exact absurd h (by simp)
    · rename_i reply n cidx1 hc
      have hn : n ≤ maxRetries := callWithRetry_calls_le _ _ _ _ _ _ _ hc
      have hmr : maxRetries ≤ (k + 1) * maxRetries :=
        Nat.le_mul_of_pos_left maxRetries (by omega)
      have h3 : (k + 1) * maxRetries = k * maxRetries + maxRetries := by ring
      split at h
      · exact absurd h (by simp)
      · rename_i r2 ms ha
        simp only [Option.some.injEq, Prod.mk.injEq] at h
        obtain ⟨h1, h2⟩ := h
        rw [← h2]
        simp only [mergeState]
        omega
      · rename_i ms ha
        have h2 := ih (step + 1) (mergeState (st.pcalls + n) ms) r st2 h
        simp only [mergeState] at h2
        omega

/-- Claim C1 (amended): across one Agent run the primary provider is invoked
at most `max_steps * max_retries` times in total, counting every call the
retry wrapper makes, for every provider behaviour, tool registry and
cancellation schedule. -/
theorem run_primary_invocations_bounded (primary : Nat → Ask → Reply)
    (toolsF : String → Option ToolFun) (maxRetries : Nat) (cancel : Nat → Bool)
    (maxSteps maxTokens : Nat) (policy : ReasoningPolicy) (a : Ask) (r : Reply)
    (st : RunState)
    (h : run primary toolsF maxRetries cancel maxSteps maxTokens policy a = some (r, st)) :
    st.pcalls ≤ maxSteps * maxRetries := by
  unfold run at h
  by_cases hpre : askTokens a > maxTokens
  · rw [if_pos hpre] at h
    simp only [Option.some.injEq, Prod.mk.injEq] at h
    obtain ⟨h1, h2⟩ := h
    rw [← h2]
    exact Nat.zero_le _
  · rw [if_neg hpre] at h
    have h2 := runAux_pcalls_le primary toolsF maxRetries cancel
      (chosenMode policy maxTokens a) maxSteps 0
      ⟨maxTokens - askTokens a, step0Ask policy maxTokens a, 0, 0, 0⟩ r st h
    simpa using h2

theorem run_primary_invocations_bounded_witness :
    run cEchoPrimary cNoTools 1 cNever 1 1000 defaultPolicy cAsk9
      = some (⟨true, Json.obj [("msg", Json.str "hi")], 0, emptyObj⟩,
          ⟨974, step0Ask defaultPolicy 1000 cAsk9, 1, 0, 2⟩) ∧
    RunState.pcalls ⟨974, step0Ask defaultPolicy 1000 cAsk9, 1, 0, 2⟩ ≤ 1 * 1 :=
  ⟨rfl,
   run_primary_invocations_bounded cEchoPrimary cNoTools 1 cNever 1 1000 defaultPolicy cAsk9
     ⟨true, Json.obj [("msg", Json.str "hi")], 0, emptyObj⟩
     ⟨974, step0Ask defaultPolicy 1000 cAsk9, 1, 0, 2⟩ rfl⟩

/-- Claim C1 counterexample: with `max_steps = 1`, `max_retries = 2`, an
always-failing primary provider and an ample token budget, the run makes 2
primary invocations, exceeding `max_steps = 1`; so the claim that the primary
is invoked no more than `max_steps` times, counting every retry-wrapper call,
is false on the code. -/
theorem run_primary_invocations_exceed_max_steps :
    (run cFailPrimary cNoTools 2 cNever 1 1000 defaultPolicy cAsk1).map
        (fun p => p.2.pcalls) = some 2 ∧ ¬(2 ≤ 1) :=
  ⟨rfl, by omega⟩

/-- Claim C2 (amended): in the parallel path the entries are processed in
submission order with each entry's tool lookup performed immediately before
that entry's own input debit: an entry naming an unregistered tool
short-circuits with the unknown-tool reply before its own input is debited
and before any dispatch, but when an earlier entry's input debit already
exceeds the remaining budget the run returns the token-budget error instead,
and a registered, affordable entry debits its input before the next entry is
examined; any error produced by this collection loop is returned unchanged
by the parallel path before any tool is invoked. -/
theorem parallel_lookup_debit_interleaving (toolsF : String → Option ToolFun)
    (maxRetries : Nat) (cancel : Nat → Bool) (mode : ReasoningMode)
    (tc : Json) (rest : List Json) (rem : Nat) :
    (toolsF (((tc.indexStr "op").asStr).getD "") = none →
       precollect toolsF (tc :: rest) rem
         = Except.error (unknownToolReply (((tc.indexStr "op").asStr).getD ""))) ∧
    (∀ tf, toolsF (((tc.indexStr "op").asStr).getD "") = some tf →
       estimateTokens (tc.indexStr "input") > rem →
       precollect toolsF (tc :: rest) rem
         = Except.error (budgetExceededReply 0 emptyObj)) ∧
    (∀ tf, toolsF (((tc.indexStr "op").asStr).getD "") = some tf →
       estimateTokens (tc.indexStr "input") ≤ rem →
       precollect toolsF (tc :: rest) rem
         = Except.map
             (fun p => ((((tc.indexStr "op").asStr).getD "", tf, tc.indexStr "input") :: p.1,
                        p.2))
             (precollect toolsF rest (rem - estimateTokens (tc.indexStr "input")))) ∧
    (∀ (toolCalls : List Json) (ms : MidState) (r : Reply),
       precollect toolsF toolCalls ms.remaining = Except.error r →
       parallelTools toolsF maxRetries cancel mode toolCalls ms = some (Sum.inl (r, ms))) := by
  refine ⟨?_, ?_, ?_, ?_⟩
  · intro hn
    simp [precollect, hn]
  · intro tf htf hgt
    simp [precollect, htf, hgt]
  · intro tf htf hle
    have hng : ¬ (estimateTokens (tc.indexStr "input") > rem) := by omega
    simp only [precollect, htf]
    rw [if_neg hng]
    cases precollect toolsF rest (rem - estimateTokens (tc.indexStr "input")) <;>
      simp [Except.map]
  · intro toolCalls ms r hpre
    simp [parallelTools, hpre]

theorem parallel_lookup_debit_interleaving_witness :
    cT2tools "t2" = none ∧
    precollect cT2tools [cTc1] 50 = Except.error (unknownToolReply "t2") ∧
    cT2tools "t1" = some cT1fun ∧
    estimateTokens (cTc0.indexStr "input") > 10 ∧
    precollect cT2tools [cTc0, cTc1] 10 = Except.error (budgetExceededReply 0 emptyObj) :=
  ⟨rfl,
   (parallel_lookup_debit_interleaving cT2tools 1 cNever ReasoningMode.direct cTc1 [] 50).1 rfl,
   rfl,
   by decide,
   (parallel_lookup_debit_interleaving cT2tools 1 cNever ReasoningMode.direct cTc0 [cTc1]
      10).2.1 cT1fun rfl (by decide)⟩

/-- Claim C2 counterexample: a two-entry fan-out whose first entry names the
registered tool `t1` with a 42-token input and whose second entry names the
unregistered tool `t2`, under a budget leaving only 10 tokens at the loop,
makes the run return the token-budget error, not the unknown-tool error the
claim requires, and the first entry's input debit is what triggers it. -/
theorem parallel_unknown_after_budget_cex :
    (run cPrim2 cT2tools 1 cNever 1 105 defaultPolicy cAsk2).map Prod.fst
      = some (budgetExceededReply 0 emptyObj) ∧
    budgetExceededReply 0 emptyObj ≠ unknownToolReply "t2" :=
  ⟨rfl,
   fun h => absurd (congrArg (fun x => serialize x.output) h) (by decide)⟩
